import Mathlib

/-!
Shallow embedding of `src/app/stores/DocumentsStore.js` (a MobX document
store: an identity-mapped entity table, derived sorted views, named-page
fetching, and an offset/limit-spliced search-result cache).

The JavaScript store is modelled as a pure state-transition system:
each asynchronous method becomes a Lean function taking the transport's
response as an explicit oracle argument and returning
`Except Err result × StoreState`.  The JS `Map` (insertion-ordered,
in-place update) is modelled as a `List` with id-unique insert-or-replace.
-/

namespace DocumentsStore

/-- A document entity (`Document` model), with the fields the store reads.
Timestamps are modelled as `Nat`; `publishedAt` is optional (drafts). -/
structure Doc where
  id : String
  urlId : String
  title : String
  text : String
  collectionId : String
  createdById : String
  pinned : Bool
  starred : Bool
  updatedAt : Nat
  publishedAt : Option Nat
  deriving Repr, DecidableEq

/-- One search result: `{ ranking, context, document }`.  Used both for the
raw API payload entries and for the cache entries built from them. -/
structure SearchResult where
  ranking : Int
  context : String
  document : Doc
  deriving Repr, DecidableEq

/-- Pagination parameters (`offset`, `limit`, `sort`, `direction`). -/
structure PaginationParams where
  offset : Option Nat := none
  limit : Option Nat := none
  sort : Option String := none
  direction : Option String := none
  deriving Repr, DecidableEq

/-- Options accepted by `fetch` (`prefetch`, `shareId`). -/
structure FetchOptions where
  prefetch : Bool := false
  shareId : Option String := none
  deriving Repr, DecidableEq

/-- A transport response: the request either fails at the transport level,
or resolves; a resolved response may still be missing its `data` field
(covering both a falsy `res` and a missing `res.data`). -/
inductive TResp (α : Type) where
  | tfail : TResp α
  | ok : Option α → TResp α
  deriving Repr, DecidableEq

/-- Errors propagated to the caller: transport failures surface unchanged;
`invariant(...)` failures are contract violations with their message. -/
inductive Err where
  | transport : Err
  | contract : String → Err
  deriving Repr, DecidableEq

/-- A record of one network request issued by the store (instrumentation
used to state "issues no transport request"). -/
inductive Request where
  | namedPage : String → PaginationParams → Request
  | searchReq : String → PaginationParams → Request
  | info : String → Option String → Request
  deriving Repr, DecidableEq

/-- The store state: the identity-mapped entity table (insertion-ordered),
the `isFetching` / `isLoaded` flags, the recently-viewed id list, the
per-query search cache, and the log of issued requests. -/
structure StoreState where
  data : List Doc
  isFetching : Bool
  isLoaded : Bool
  recentlyViewedIds : List String
  searchCache : List (String × List SearchResult)
  requests : List Request
  deriving Repr, DecidableEq

/-- `this.data.get(id)`: identity-map lookup by id. -/
def lookupDoc (table : List Doc) (id : String) : Option Doc :=
  table.find? (fun d => d.id = id)

/-- `getByUrl(url)`: first document (in table order) whose `urlId` is a
suffix of the given string (`url.endsWith(doc.urlId)`). -/
def getByUrl (table : List Doc) (url : String) : Option Doc :=
  table.find? (fun d => url.endsWith d.urlId)

/-- Modelled from the spec: `BaseStore.add(raw) → Document` is not under
`src/`; per the spec the base store keeps an identity map with exactly one
instance per id, updating the existing entry in place (keeping its map
position) when the id is already present and appending otherwise. -/
def addDoc (table : List Doc) (d : Doc) : List Doc :=
  if table.any (fun e => e.id = d.id) then
    table.map (fun e => if e.id = d.id then d else e)
  else table ++ [d]

/-- `data.forEach(this.add)`: add every document in order. -/
def addAll (table : List Doc) (ds : List Doc) : List Doc :=
  ds.foldl addDoc table

/-- `this.searchCache.get(query)`: association-list lookup. -/
def lookupCache (cache : List (String × List SearchResult)) (q : String) :
    Option (List SearchResult) :=
  (cache.find? (fun e => e.1 = q)).map (·.2)

/-- `this.searchCache.set(query, results)`: replace or append. -/
def setCache (cache : List (String × List SearchResult)) (q : String)
    (rs : List SearchResult) : List (String × List SearchResult) :=
  if cache.any (fun e => e.1 = q) then
    cache.map (fun e => if e.1 = q then (q, rs) else e)
  else cache ++ [(q, rs)]

/-- JavaScript `Array.prototype.splice(start, deleteCount, ...items)` for a
non-negative `start`: the start index is clamped to the length, the
`deleteCount` elements from there are removed, and `items` are inserted in
their place. -/
def spliceJS {α : Type} (l : List α) (start delCount : Nat) (items : List α) :
    List α :=
  let s := min start l.length
  l.take s ++ items ++ l.drop (s + delCount)

/-- The search result list built from a payload: each result's document is
re-resolved against the (already updated) table; results whose document
fails to resolve are dropped (`compact`). -/
def resolveResults (table : List Doc) (data : List SearchResult) :
    List SearchResult :=
  data.filterMap (fun r =>
    (lookupDoc table r.document.id).map (fun d =>
      { ranking := r.ranking, context := r.context, document := d }))

/-- `searchResults(query)`: the cached sequence, or empty. -/
def searchResults (s : StoreState) (query : String) : List SearchResult :=
  (lookupCache s.searchCache query).getD []

/-- lodash `uniq`: deduplicate keeping the first occurrence of each
element, preserving order. -/
def uniqJS : List String → List String
  | [] => []
  | a :: l => a :: uniqJS (l.filter (fun x => x ≠ a))
termination_by l => l.length
decreasing_by
  simp only [List.length_cons]
  exact Nat.lt_succ_of_le (List.length_filter_le _ _)

/-- The descending-`updatedAt` ordering used by `orderBy(_, 'updatedAt',
'desc')`; insertion sort with this relation is a stable descending sort. -/
def updBefore (a b : Doc) : Prop := b.updatedAt ≤ a.updatedAt

instance : DecidableRel updBefore := fun a b => Nat.decLe b.updatedAt a.updatedAt

instance : IsTotal Doc updBefore := ⟨fun a b => Nat.le_total b.updatedAt a.updatedAt⟩

instance : IsTrans Doc updBefore := ⟨fun _ _ _ h h' => Nat.le_trans h' h⟩

/-- `orderBy(list, 'updatedAt', 'desc')`: stable sort, most recent first. -/
def sortByUpdatedDesc (l : List Doc) : List Doc :=
  l.insertionSort updBefore

/-- `publishedInCollection(collectionId)`: documents of the collection with
a present (truthy) `publishedAt`. -/
def publishedInCollection (table : List Doc) (collectionId : String) : List Doc :=
  table.filter (fun d => d.collectionId = collectionId ∧ d.publishedAt.isSome)

/-- `recentlyUpdatedInCollection(collectionId)`. -/
def recentlyUpdatedInCollection (table : List Doc) (collectionId : String) :
    List Doc :=
  sortByUpdatedDesc (publishedInCollection table collectionId)

/-- `drafts`: documents without `publishedAt`, filtered from the
descending-`updatedAt` ordering of the whole table. -/
def drafts (table : List Doc) : List Doc :=
  (sortByUpdatedDesc table).filter (fun d => d.publishedAt.isNone)

/-- `fetchNamedPage(request, options)`: logs the request, sets
`isFetching`, and on a well-formed response adds every entity and marks the
store loaded; the `finally` clears `isFetching` on every path. -/
def fetchNamedPage (request : String) (options : PaginationParams)
    (resp : TResp (List Doc)) (s : StoreState) :
    Except Err (List Doc) × StoreState :=
  let s1 : StoreState :=
    { s with isFetching := true,
             requests := s.requests ++ [Request.namedPage request options] }
  match resp with
  | .tfail => (.error .transport, { s1 with isFetching := false })
  | .ok none =>
      (.error (.contract "Document list not available"),
       { s1 with isFetching := false })
  | .ok (some data) =>
      (.ok data,
       { s1 with data := addAll s1.data data, isLoaded := true,
                 isFetching := false })

/-- `fetchRecentlyViewed(options)`: a `viewed` named-page fetch, then the
returned ids are merged into `recentlyViewedIds` with `uniq`. -/
def fetchRecentlyViewed (options : PaginationParams)
    (resp : TResp (List Doc)) (s : StoreState) :
    Except Err (List Doc) × StoreState :=
  match fetchNamedPage "viewed" options resp s with
  | (.error e, s1) => (.error e, s1)
  | (.ok data, s1) =>
      (.ok data,
       { s1 with recentlyViewedIds :=
           uniqJS (s1.recentlyViewedIds ++ data.map (fun d => d.id)) })

/-- The value `isFetching` holds for the duration of a `fetch` call:
`if (!options.prefetch) this.isFetching = true;` leaves the flag alone for
prefetch calls. -/
def fetchFlagDuring (options : FetchOptions) (s : StoreState) : Bool :=
  if options.prefetch then s.isFetching else true

/-- `fetch(id, options)`: returns the cached document when present by id or
by `getByUrl` suffix match (no request issued); otherwise issues a
`documents.info` request, adds the result, and marks the store loaded.  The
`finally` clears `isFetching` unconditionally on every path. -/
def fetch (id : String) (options : FetchOptions) (resp : TResp Doc)
    (s : StoreState) : Except Err (Option Doc) × StoreState :=
  let s1 : StoreState := { s with isFetching := fetchFlagDuring options s }
  match lookupDoc s1.data id |>.orElse (fun _ => getByUrl s1.data id) with
  | some doc => (.ok (some doc), { s1 with isFetching := false })
  | none =>
      let s2 : StoreState :=
        { s1 with requests := s1.requests ++ [Request.info id options.shareId] }
      match resp with
      | .tfail => (.error .transport, { s2 with isFetching := false })
      | .ok none =>
          (.error (.contract "Document not available"),
           { s2 with isFetching := false })
      | .ok (some d) =>
          let table := addDoc s2.data d
          (.ok (lookupDoc table d.id),
           { s2 with data := table, isLoaded := true, isFetching := false })

/-- `prefetchDocument(id)`: fetch-if-absent; when the id is already in the
table it returns `undefined` (modelled `.ok none`) without any state change,
otherwise it delegates to `fetch(id, { prefetch: true })`. -/
def prefetchDocument (id : String) (resp : TResp Doc) (s : StoreState) :
    Except Err (Option Doc) × StoreState :=
  if (lookupDoc s.data id).isNone then
    fetch id { prefetch := true } resp s
  else (.ok none, s)

/-- `search(query, options)`: logs the request; on a well-formed response
adds every returned document to the table, rebuilds the page as live table
references, and splices it into the per-query cache at
`[offset, offset+limit)` (both defaulting to 0). -/
def search (query : String) (options : PaginationParams)
    (resp : TResp (List SearchResult)) (s : StoreState) :
    Except Err (List SearchResult) × StoreState :=
  let s1 : StoreState :=
    { s with requests := s.requests ++ [Request.searchReq query options] }
  match resp with
  | .tfail => (.error .transport, s1)
  | .ok none =>
      (.error (.contract "Search response should be available"), s1)
  | .ok (some data) =>
      let table := addAll s1.data (data.map (fun r => r.document))
      let results := resolveResults table data
      let existing := (lookupCache s1.searchCache query).getD []
      let merged :=
        spliceJS existing (options.offset.getD 0) (options.limit.getD 0) results
      (.ok data,
       { s1 with data := table,
                 searchCache := setCache s1.searchCache query merged })

/-! ### Helper lemmas about the table, the cache and the splice -/

theorem find?_setCache_replace (c : List (String × List SearchResult))
    (q : String) (rs : List SearchResult) :
    List.find? (fun e => e.1 = q)
        (c.map (fun e => if e.1 = q then (q, rs) else e)) =
      (List.find? (fun e => e.1 = q) c).map (fun _ => (q, rs)) := by
  induction c with
  | nil => rfl
  | cons e c ih =>
    by_cases he : e.1 = q
    · simp [List.find?_cons, he]
    · simp [List.find?_cons, he, ih]

theorem lookupCache_setCache_self (cache : List (String × List SearchResult))
    (q : String) (rs : List SearchResult) :
    lookupCache (setCache cache q rs) q = some rs := by
  unfold lookupCache setCache
  split
  case isTrue h =>
    rw [find?_setCache_replace]
    cases hfind : List.find? (fun e => decide (e.1 = q)) cache with
    | none =>
      obtain ⟨e, hmem, he⟩ := List.any_eq_true.mp h
      exact absurd he (List.find?_eq_none.mp hfind e hmem)
    | some x => simp
  case isFalse h =>
    induction cache with
    | nil => simp [List.find?_cons]
    | cons e c ih =>
      rw [List.any_cons, Bool.or_eq_true, not_or] at h
      have he : ¬e.1 = q := by
        intro hq; exact h.1 (decide_eq_true hq)
      simp only [List.cons_append, List.find?_cons, decide_eq_true_eq, he,
        decide_False]
      exact ih h.2

theorem lookupDoc_isSome_iff (table : List Doc) (i : String) :
    (lookupDoc table i).isSome ↔ ∃ d ∈ table, d.id = i := by
  unfold lookupDoc
  rw [List.find?_isSome]
  simp

theorem find?_addDoc_replace (t : List Doc) (d : Doc) :
    List.find? (fun e => e.id = d.id)
        (t.map (fun e => if e.id = d.id then d else e)) =
      (List.find? (fun e => e.id = d.id) t).map (fun _ => d) := by
  induction t with
  | nil => rfl
  | cons e t ih =>
    by_cases he : e.id = d.id
    · simp [List.find?_cons, he]
    · simp [List.find?_cons, he, ih]

theorem lookupDoc_addDoc_self (table : List Doc) (d : Doc) :
    lookupDoc (addDoc table d) d.id = some d := by
  unfold lookupDoc addDoc
  split
  case isTrue h =>
    rw [find?_addDoc_replace]
    cases hfind : List.find? (fun e => decide (e.id = d.id)) table with
    | none =>
      obtain ⟨e, hmem, he⟩ := List.any_eq_true.mp h
      exact absurd he (List.find?_eq_none.mp hfind e hmem)
    | some x => simp
  case isFalse h =>
    induction table with
    | nil => simp [List.find?_cons]
    | cons e t ih =>
      rw [List.any_cons, Bool.or_eq_true, not_or] at h
      have he : ¬e.id = d.id := by
        intro hq; exact h.1 (decide_eq_true hq)
      simp only [List.cons_append, List.find?_cons, decide_eq_true_eq, he,
        decide_False]
      exact ih h.2

theorem lookupDoc_addDoc_isSome (table : List Doc) (d : Doc) (i : String)
    (h : (lookupDoc table i).isSome) : (lookupDoc (addDoc table d) i).isSome := by
  rw [lookupDoc_isSome_iff] at h ⊢
  obtain ⟨e, he, hei⟩ := h
  unfold addDoc
  split
  · by_cases hed : e.id = d.id
    · exact ⟨d, List.mem_map.mpr ⟨e, he, by simp [hed]⟩, by rw [← hed, hei]⟩
    · exact ⟨e, List.mem_map.mpr ⟨e, he, by simp [hed]⟩, hei⟩
  · exact ⟨e, List.mem_append_left _ he, hei⟩

theorem lookupDoc_addAll_isSome (ds : List Doc) (table : List Doc) (i : String)
    (h : (lookupDoc table i).isSome) : (lookupDoc (addAll table ds) i).isSome := by
  induction ds generalizing table with
  | nil => exact h
  | cons d ds ih => exact ih _ (lookupDoc_addDoc_isSome table d i h)

theorem lookupDoc_addAll_mem (ds : List Doc) (table : List Doc) (d : Doc)
    (hd : d ∈ ds) : (lookupDoc (addAll table ds) d.id).isSome := by
  induction ds generalizing table with
  | nil => cases hd
  | cons e ds ih =>
    rcases List.mem_cons.mp hd with heq | hd
    · subst heq
      exact lookupDoc_addAll_isSome ds _ d.id
        (by rw [lookupDoc_addDoc_self]; rfl)
    · exact ih (addDoc table e) hd

theorem resolveResults_length (table : List Doc) (data : List SearchResult)
    (h : ∀ r ∈ data, (lookupDoc table r.document.id).isSome) :
    (resolveResults table data).length = data.length := by
  induction data with
  | nil => rfl
  | cons r rs ih =>
    have hr := h r (List.mem_cons_self r rs)
    obtain ⟨d, hd⟩ := Option.isSome_iff_exists.mp hr
    unfold resolveResults
    rw [List.filterMap_cons, hd]
    simpa [resolveResults] using ih (fun x hx => h x (List.mem_cons_of_mem r hx))

theorem spliceJS_of_le {α : Type} (l : List α) (start delCount : Nat)
    (items : List α) (h : start ≤ l.length) :
    spliceJS l start delCount items =
      l.take start ++ items ++ l.drop (start + delCount) := by
  unfold spliceJS
  rw [Nat.min_eq_left h]

theorem spliceJS_length_of_le {α : Type} (l : List α) (start delCount : Nat)
    (items : List α) (h : start ≤ l.length) (hi : items.length = delCount) :
    (spliceJS l start delCount items).length = max l.length (start + delCount) := by
  rw [spliceJS_of_le l start delCount items h]
  simp only [List.length_append, List.length_take, List.length_drop,
    Nat.min_eq_left h, hi]
  omega

/-! ### Helper lemmas about `uniqJS` -/

theorem mem_uniqJS (l : List String) (x : String) : x ∈ uniqJS l ↔ x ∈ l := by
  induction l using uniqJS.induct with
  | case1 => simp [uniqJS]
  | case2 a l ih =>
    rw [uniqJS]
    by_cases hx : x = a
    · simp [hx]
    · simp only [List.mem_cons, hx, false_or, ih, List.mem_filter,
        decide_eq_true_eq]
      exact ⟨fun h => h.1, fun h => ⟨h, hx⟩⟩

theorem nodup_uniqJS (l : List String) : (uniqJS l).Nodup := by
  induction l using uniqJS.induct with
  | case1 => simp [uniqJS]
  | case2 a l ih =>
    rw [uniqJS]
    refine List.nodup_cons.mpr ⟨fun h => ?_, ih⟩
    rw [mem_uniqJS] at h
    exact (of_decide_eq_true (List.mem_filter.mp h).2) rfl

theorem uniqJS_append_nodup (old new : List String) (h : old.Nodup) :
    uniqJS (old ++ new) =
      old ++ uniqJS (new.filter (fun x => !(old.contains x))) := by
  induction old generalizing new with
  | nil =>
    simp only [List.nil_append]
    congr 1
    exact (List.filter_eq_self.mpr (by simp)).symm
  | cons a old ih =>
    have hna : a ∉ old := (List.nodup_cons.mp h).1
    rw [List.cons_append, uniqJS, List.filter_append]
    have hold : old.filter (fun x => decide (x ≠ a)) = old :=
      List.filter_eq_self.mpr (fun b hb =>
        decide_eq_true (fun hba => hna (hba ▸ hb)))
    rw [hold, ih (new.filter (fun x => decide (x ≠ a))) (List.nodup_cons.mp h).2]
    have hff : (new.filter (fun x => decide (x ≠ a))).filter
          (fun x => !old.contains x)
        = new.filter (fun x => !((a :: old).contains x)) := by
      rw [List.filter_filter]
      apply List.filter_congr
      intro b _
      by_cases hba : b = a <;> by_cases hbo : b ∈ old <;>
        simp [List.contains_cons, hba, hbo]
    rw [hff]
    rfl

/-! ### A stable insertion sort commutes with `filter` -/

theorem orderedInsert_eq_cons_of_forall {α : Type} (r : α → α → Prop)
    [DecidableRel r] (a : α) (l : List α) (h : ∀ x ∈ l, r a x) :
    l.orderedInsert r a = a :: l := by
  cases l with
  | nil => rfl
  | cons x xs =>
    rw [List.orderedInsert, if_pos (h x (List.mem_cons_self x xs))]

theorem filter_orderedInsert_pos {α : Type} (r : α → α → Prop) [DecidableRel r]
    [IsTrans α r] (p : α → Bool) (a : α) (l : List α) (hl : l.Sorted r)
    (hpa : p a = true) :
    (l.orderedInsert r a).filter p = (l.filter p).orderedInsert r a := by
  induction l with
  | nil => simp [List.orderedInsert, hpa]
  | cons b l ih =>
    by_cases hab : r a b
    · rw [List.orderedInsert, if_pos hab, List.filter_cons_of_pos hpa,
        orderedInsert_eq_cons_of_forall]
      intro x hx
      rcases List.mem_cons.mp (List.mem_of_mem_filter hx) with rfl | hxl
      · exact hab
      · exact Trans.trans hab (List.rel_of_sorted_cons hl x hxl)
    · rw [List.orderedInsert, if_neg hab]
      by_cases hpb : p b = true
      · rw [List.filter_cons_of_pos hpb, List.filter_cons_of_pos hpb,
          ih hl.of_cons, List.orderedInsert, if_neg hab]
      · rw [List.filter_cons_of_neg (by simpa using hpb),
          List.filter_cons_of_neg (by simpa using hpb), ih hl.of_cons]

theorem filter_orderedInsert_neg {α : Type} (r : α → α → Prop) [DecidableRel r]
    (p : α → Bool) (a : α) (l : List α) (hpa : p a = false) :
    (l.orderedInsert r a).filter p = l.filter p := by
  induction l with
  | nil => simp [List.orderedInsert, hpa]
  | cons b l ih =>
    by_cases hab : r a b
    · rw [List.orderedInsert, if_pos hab,
        List.filter_cons_of_neg (by simp [hpa])]
    · rw [List.orderedInsert, if_neg hab]
      by_cases hpb : p b = true
      · rw [List.filter_cons_of_pos hpb, List.filter_cons_of_pos hpb, ih]
      · rw [List.filter_cons_of_neg (by simpa using hpb),
          List.filter_cons_of_neg (by simpa using hpb), ih]

theorem filter_insertionSort {α : Type} (r : α → α → Prop) [DecidableRel r]
    [IsTotal α r] [IsTrans α r] (p : α → Bool) (l : List α) :
    (l.insertionSort r).filter p = (l.filter p).insertionSort r := by
  induction l with
  | nil => rfl
  | cons a l ih =>
    rw [List.insertionSort]
    by_cases hpa : p a = true
    · rw [filter_orderedInsert_pos r p a _ (List.sorted_insertionSort r l) hpa,
        ih, List.filter_cons_of_pos hpa, List.insertionSort]
    · rw [filter_orderedInsert_neg r p a _ (by simpa using hpa), ih,
        List.filter_cons_of_neg (by simpa using hpa)]

theorem drafts_eq_sort_filter (table : List Doc) :
    drafts table =
      sortByUpdatedDesc (table.filter (fun d => d.publishedAt.isNone)) :=
  filter_insertionSort updBefore (fun d => d.publishedAt.isNone) table

/-! ### Concrete fixtures used by witnesses and counterexamples -/

/-- A concrete document for tests. -/
def exDoc (i : String) (u : Nat) (pub : Option Nat) : Doc :=
  { id := i, urlId := "url-" ++ i, title := i, text := "", collectionId := "X",
    createdById := "user", pinned := false, starred := false, updatedAt := u,
    publishedAt := pub }

/-- The empty initial store. -/
def exState0 : StoreState :=
  { data := [], isFetching := false, isLoaded := false,
    recentlyViewedIds := [], searchCache := [], requests := [] }

/-- A concrete raw search result. -/
def exResult (i : String) : SearchResult :=
  { ranking := 1, context := "ctx", document := exDoc i 0 (some 1) }

def exDocA : Doc := exDoc "A" 2 (some 1)

def exDocB : Doc := exDoc "B" 5 (some 1)

def exDocC : Doc := exDoc "C" 1 none

def exTable : List Doc := [exDocA, exDocB, exDocC]

/-- A store that is mid-request (`isFetching` raised) and has one cached
document. -/
def exBusyState : StoreState :=
  { data := [exDoc "a" 1 none], isFetching := true, isLoaded := false,
    recentlyViewedIds := [], searchCache := [], requests := [] }

/-! ### Behavioural helper lemmas about `fetch` -/

theorem fetch_isFetching_false (id : String) (opts : FetchOptions)
    (resp : TResp Doc) (s : StoreState) :
    (fetch id opts resp s).2.isFetching = false := by
  unfold fetch
  dsimp only
  split
  · rfl
  · split <;> rfl

theorem fetch_lookup_some (id : String) (opts : FetchOptions)
    (resp : TResp Doc) (s : StoreState) (d : Doc)
    (h : lookupDoc s.data id = some d) :
    fetch id opts resp s = (.ok (some d), { s with isFetching := false }) := by
  unfold fetch
  dsimp only
  rw [h]
  rfl

theorem fetch_byUrl_some (id : String) (opts : FetchOptions)
    (resp : TResp Doc) (s : StoreState) (d : Doc)
    (h1 : lookupDoc s.data id = none) (h2 : getByUrl s.data id = some d) :
    fetch id opts resp s = (.ok (some d), { s with isFetching := false }) := by
  unfold fetch
  dsimp only
  rw [h1]
  dsimp only [Option.orElse]
  rw [h2]

theorem fetch_miss_ok (id : String) (opts : FetchOptions) (d : Doc)
    (s : StoreState)
    (h1 : lookupDoc s.data id = none) (h2 : getByUrl s.data id = none) :
    fetch id opts (.ok (some d)) s =
      (.ok (some d),
       { s with data := addDoc s.data d, isLoaded := true, isFetching := false,
                requests := s.requests ++ [Request.info id opts.shareId] }) := by
  unfold fetch
  dsimp only
  rw [h1]
  dsimp only [Option.orElse]
  rw [h2]
  dsimp only
  rw [lookupDoc_addDoc_self]

/-! ### Claim theorems -/

/-- C7 counterexample: the claim says a `prefetch` fetch leaves `isFetching`
with the same value it had before the call; but on a store whose flag is
raised (`exBusyState.isFetching = true`) a prefetch `fetch` ends with
`isFetching = false` — the unconditional `finally` cleanup clobbers it. -/
theorem fetch_prefetch_flag_counterexample :
    exBusyState.isFetching = true ∧
      (fetch "a" { prefetch := true } .tfail exBusyState).2.isFetching = false := by
  constructor
  · rfl
  · decide

/-- C7 (amended): a `fetch` call with `prefetch` set never raises
`isFetching` (the flag's value for the duration of the call is exactly its
prior value), but the guaranteed cleanup clears the flag unconditionally:
after the call `isFetching` is `false` regardless of outcome, so the flag
is preserved exactly when it was `false` before the call. -/
theorem fetch_prefetch_flag_amended (id : String) (opts : FetchOptions)
    (resp : TResp Doc) (s : StoreState) (hp : opts.prefetch = true) :
    fetchFlagDuring opts s = s.isFetching ∧
      (fetch id opts resp s).2.isFetching = false := by
  refine ⟨?_, fetch_isFetching_false id opts resp s⟩
  simp [fetchFlagDuring, hp]

/-- C7 witness: the amended theorem applied at a concrete prefetch call on
the busy store. -/
theorem fetch_prefetch_flag_amended_witness :
    fetchFlagDuring { prefetch := true } exBusyState = exBusyState.isFetching ∧
      (fetch "a" { prefetch := true } .tfail exBusyState).2.isFetching = false :=
  fetch_prefetch_flag_amended "a" { prefetch := true } .tfail exBusyState rfl

/-- C8: derived views select and sort as specified: `publishedInCollection`
never contains a document with absent `publishedAt`;
`recentlyUpdatedInCollection` is the published-in-collection set sorted by
`updatedAt` descending; `drafts` is exactly the unpublished documents
sorted by `updatedAt` descending; and on the concrete table
A(updatedAt=2), B(5), C(1) in collection "X" with C unpublished,
`recentlyUpdatedInCollection "X" = [B, A]` and `drafts = [C]`. -/
theorem derived_views_spec (t : List Doc) (c : String) :
    (∀ d ∈ publishedInCollection t c, d.publishedAt.isSome) ∧
      recentlyUpdatedInCollection t c =
        sortByUpdatedDesc (publishedInCollection t c) ∧
      drafts t = sortByUpdatedDesc (t.filter (fun d => d.publishedAt.isNone)) ∧
      recentlyUpdatedInCollection exTable "X" = [exDocB, exDocA] ∧
      drafts exTable = [exDocC] := by
  refine ⟨?_, rfl, drafts_eq_sort_filter t, by decide, by decide⟩
  intro d hd
  have := List.mem_filter.mp hd
  exact (of_decide_eq_true this.2).2

/-- C8 witness: the published-in-collection conjunct applied to a concrete
document of the concrete table. -/
theorem derived_views_spec_witness : exDocA.publishedAt.isSome :=
  (derived_views_spec exTable "X").1 exDocA (by decide)

/-- C9: if the search response lacks its `data` field, `search` raises the
contract failure and mutates nothing: the entity table, the search cache
(including the entry for the query), the recently-viewed list and both
flags are exactly what they were before the call. -/
theorem search_missing_data_atomic (q : String) (opts : PaginationParams)
    (s : StoreState) :
    (search q opts (.ok none) s).1 =
        .error (.contract "Search response should be available") ∧
      (search q opts (.ok none) s).2.data = s.data ∧
      (search q opts (.ok none) s).2.searchCache = s.searchCache ∧
      searchResults (search q opts (.ok none) s).2 q = searchResults s q ∧
      (search q opts (.ok none) s).2.recentlyViewedIds = s.recentlyViewedIds ∧
      (search q opts (.ok none) s).2.isLoaded = s.isLoaded ∧
      (search q opts (.ok none) s).2.isFetching = s.isFetching :=
  ⟨rfl, rfl, rfl, rfl, rfl, rfl, rfl⟩

/-- C10: `prefetchDocument` is fetch-if-absent on the id key only: when the
id is present in the table it returns `undefined` (not the cached document)
and changes nothing — issuing no request; when the id is absent it is
exactly `fetch(id, { prefetch: true })`, so an id that only matches a
cached document's `urlId` suffix still goes through `fetch` (which then
returns that document). -/
theorem prefetchDocument_fetch_if_absent (id : String) (resp : TResp Doc)
    (s : StoreState) :
    ((lookupDoc s.data id).isSome →
        prefetchDocument id resp s = (.ok none, s)) ∧
      (lookupDoc s.data id = none →
        prefetchDocument id resp s = fetch id { prefetch := true } resp s) ∧
      (∀ d, lookupDoc s.data id = none → getByUrl s.data id = some d →
        prefetchDocument id resp s = (.ok (some d), { s with isFetching := false })) := by
  refine ⟨fun h => ?_, fun h => ?_, fun d h1 h2 => ?_⟩
  · unfold prefetchDocument
    rw [if_neg (fun hc =>
      (Option.ne_none_iff_isSome.mpr h) (Option.isNone_iff_eq_none.mp hc))]
  · unfold prefetchDocument
    rw [if_pos (by simp [h])]
  · unfold prefetchDocument
    rw [if_pos (by simp [h1])]
    exact fetch_byUrl_some id { prefetch := true } resp s d h1 h2

/-- C10 witness: on the busy store (which caches document "a"),
`prefetchDocument "a"` returns `undefined` and leaves the state alone. -/
theorem prefetchDocument_fetch_if_absent_witness :
    prefetchDocument "a" .tfail exBusyState = (.ok none, exBusyState) :=
  (prefetchDocument_fetch_if_absent "a" .tfail exBusyState).1 (by decide)

/-- C4: `fetchNamedPage` raises the contract failure when the response
lacks its `data` field; in every case — success, transport failure, or
malformed payload — `isFetching` is `false` after the call; and on success
every returned entity is present in the entity table, `isLoaded` is set,
and the raw returned list is the call's result. -/
theorem fetchNamedPage_contract_cleanup (request : String)
    (options : PaginationParams) (resp : TResp (List Doc)) (s : StoreState) :
    (fetchNamedPage request options resp s).2.isFetching = false ∧
      (resp = .ok none →
        (fetchNamedPage request options resp s).1 =
          .error (.contract "Document list not available")) ∧
      (∀ data, resp = .ok (some data) →
        (fetchNamedPage request options resp s).1 = .ok data ∧
          (fetchNamedPage request options resp s).2.isLoaded = true ∧
          ∀ d ∈ data,
            (lookupDoc (fetchNamedPage request options resp s).2.data d.id).isSome) := by
  refine ⟨?_, fun h => ?_, fun data h => ?_⟩
  · cases resp with
    | tfail => rfl
    | ok o => cases o <;> rfl
  · subst h; rfl
  · subst h
    exact ⟨rfl, rfl, fun d hd => lookupDoc_addAll_mem data s.data d hd⟩

/-- C4 witness: a successful concrete fetch returns the raw list and ends
with the fetching flag cleared. -/
theorem fetchNamedPage_contract_cleanup_witness :
    (fetchNamedPage "list" {} (.ok (some [exDocA])) exState0).1 = .ok [exDocA] ∧
      (fetchNamedPage "list" {} (.ok (some [exDocA])) exState0).2.isFetching
        = false :=
  ⟨((fetchNamedPage_contract_cleanup "list" {} (.ok (some [exDocA]))
      exState0).2.2 [exDocA] rfl).1,
   (fetchNamedPage_contract_cleanup "list" {} (.ok (some [exDocA]))
      exState0).1⟩

/-- C5: `fetch(id)` returns the cached instance and issues no request (the
state is unchanged but for the cleared fetching flag) when the id is in the
table, and likewise when the id suffix-matches a cached document's `urlId`;
only when both lookups miss does it issue a `documents.info` request, add
the returned document to the table, mark the store loaded, and return the
new instance. -/
theorem fetch_cached_or_request (id : String) (opts : FetchOptions)
    (resp : TResp Doc) (s : StoreState) :
    (∀ d, lookupDoc s.data id = some d →
        fetch id opts resp s = (.ok (some d), { s with isFetching := false })) ∧
      (∀ d, lookupDoc s.data id = none → getByUrl s.data id = some d →
        fetch id opts resp s = (.ok (some d), { s with isFetching := false })) ∧
      (∀ d, lookupDoc s.data id = none → getByUrl s.data id = none →
        fetch id opts (.ok (some d)) s =
          (.ok (some d),
           { s with data := addDoc s.data d, isLoaded := true,
                    isFetching := false,
                    requests := s.requests ++ [Request.info id opts.shareId] })) :=
  ⟨fun d h => fetch_lookup_some id opts resp s d h,
   fun d h1 h2 => fetch_byUrl_some id opts resp s d h1 h2,
   fun d h1 h2 => fetch_miss_ok id opts d s h1 h2⟩

/-- C5 witness: fetching the cached document "a" returns it directly and
only clears the fetching flag. -/
theorem fetch_cached_or_request_witness :
    fetch "a" {} .tfail exBusyState =
      (.ok (some (exDoc "a" 1 none)), { exBusyState with isFetching := false }) :=
  (fetch_cached_or_request "a" {} .tfail exBusyState).1 (exDoc "a" 1 none)
    (by decide)

/-- C6: after two successive `fetchRecentlyViewed` calls the resulting
`recentlyViewedIds` is the duplicate-free union of the first call's list
and the second call's returned ids: the old list is kept as an unchanged
prefix (first-seen positions preserved) with only genuinely new ids
appended, the result has no duplicates, and its members are exactly the
union. -/
theorem fetchRecentlyViewed_dedup_union (opts1 opts2 : PaginationParams)
    (data1 data2 : List Doc) (s : StoreState) :
    let s1 := (fetchRecentlyViewed opts1 (.ok (some data1)) s).2
    let s2 := (fetchRecentlyViewed opts2 (.ok (some data2)) s1).2
    let old := s1.recentlyViewedIds
    let newIds := data2.map (fun d => d.id)
    s2.recentlyViewedIds =
        old ++ uniqJS (newIds.filter (fun x => !(old.contains x))) ∧
      s2.recentlyViewedIds.Nodup ∧
      (∀ x, x ∈ s2.recentlyViewedIds ↔ x ∈ old ∨ x ∈ newIds) := by
  intro s1 s2 old newIds
  have hnodup : old.Nodup := nodup_uniqJS _
  have h2 : s2.recentlyViewedIds = uniqJS (old ++ newIds) := rfl
  rw [h2, uniqJS_append_nodup old newIds hnodup]
  refine ⟨rfl, ?_, ?_⟩
  · refine List.Nodup.append hnodup (nodup_uniqJS _) ?_
    intro x hx hx2
    have hmf := List.mem_filter.mp ((mem_uniqJS _ x).mp hx2)
    have hc : old.contains x = true := List.elem_iff.mpr hx
    have hfalse := hmf.2
    rw [hc] at hfalse
    simp at hfalse
  · intro x
    rw [List.mem_append, mem_uniqJS, List.mem_filter]
    constructor
    · rintro (hx | ⟨hx, _⟩)
      · exact Or.inl hx
      · exact Or.inr hx
    · rintro (hx | hx)
      · exact Or.inl hx
      · by_cases hxo : x ∈ old
        · exact Or.inl hxo
        · refine Or.inr ⟨hx, ?_⟩
          simp only [Bool.not_eq_true']
          rw [← Bool.not_eq_true, List.elem_iff]
          exact hxo

/-! ### Search-cache lemmas and claims -/

theorem searchResults_search_ok (q : String) (opts : PaginationParams)
    (data : List SearchResult) (s : StoreState) :
    searchResults (search q opts (.ok (some data)) s).2 q =
      spliceJS (searchResults s q) (opts.offset.getD 0) (opts.limit.getD 0)
        (resolveResults (addAll s.data (data.map (fun r => r.document))) data) := by
  unfold search searchResults
  dsimp only
  rw [lookupCache_setCache_self]
  rfl

theorem searchResults_search_some (q : String) (o k : Nat)
    (data : List SearchResult) (s : StoreState) :
    searchResults (search q { offset := some o, limit := some k }
        (.ok (some data)) s).2 q =
      spliceJS (searchResults s q) o k
        (resolveResults (addAll s.data (data.map (fun r => r.document)))
          data) := by
  rw [searchResults_search_ok]
  rfl

theorem resolveResults_addAll_length (table : List Doc)
    (data : List SearchResult) :
    (resolveResults (addAll table (data.map (fun r => r.document)))
        data).length = data.length :=
  resolveResults_length _ _ (fun r hr =>
    lookupDoc_addAll_mem _ table r.document
      (List.mem_map_of_mem (fun r => r.document) hr))

/-- A concrete full page of ten distinct results. -/
def exPage (tag : String) : List SearchResult :=
  (List.range 10).map (fun n => exResult (tag ++ toString n))

/-- A first page of two results cached for query "q". -/
def exSearchState1 : StoreState :=
  (search "q" { offset := some 0, limit := some 2 }
    (.ok (some [exResult "a", exResult "b"])) exState0).2

/-- A refetch of the same range `[0, 2)` that returned only one result. -/
def exSearchState2 : StoreState :=
  (search "q" { offset := some 0, limit := some 2 }
    (.ok (some [exResult "c"])) exSearchState1).2

/-- C1 counterexample: the claim says the cached sequence never shrinks,
"including when the returned page contains fewer results than limit" — but
refetching the range `[0, 2)` with a page of one result splices one element
in place of two, and the cached sequence shrinks from length 2 to
length 1. -/
theorem search_merge_shrinks_counterexample :
    (searchResults exSearchState1 "q").length = 2 ∧
      (searchResults exSearchState2 "q").length = 1 ∧
      (searchResults exSearchState2 "q").length <
        (searchResults exSearchState1 "q").length := by
  refine ⟨?_, ?_, ?_⟩ <;> decide

/-- C1 (amended): the merge invariant holds for pages that are exactly
full: for every state and query, a `search(q, {offset, limit})` call whose
returned page has exactly `limit` results and whose `offset` does not
exceed the current cached length replaces exactly the index range
`[offset, offset+limit)` of the cached sequence with the (re-resolved)
page, leaves every index outside that range untouched, grows the sequence
to `offset+limit` when the range extends past the current end, and never
shrinks it.  (When the page is shorter than `limit` the tail shifts left
and the sequence can shrink; when `limit` is absent the page is inserted
rather than overwritten.) -/
theorem search_merge_overwrite_amended (s : StoreState) (q : String)
    (o k : Nat) (data : List SearchResult)
    (ho : o ≤ (searchResults s q).length) (hk : data.length = k) :
    searchResults (search q { offset := some o, limit := some k }
        (.ok (some data)) s).2 q =
      (searchResults s q).take o ++
        resolveResults (addAll s.data (data.map (fun r => r.document))) data ++
        (searchResults s q).drop (o + k) ∧
      (searchResults (search q { offset := some o, limit := some k }
          (.ok (some data)) s).2 q).length =
        max (searchResults s q).length (o + k) ∧
      (searchResults s q).length ≤
        (searchResults (search q { offset := some o, limit := some k }
            (.ok (some data)) s).2 q).length := by
  have hres := searchResults_search_some q o k data s
  have hlen : (resolveResults (addAll s.data (data.map (fun r => r.document)))
      data).length = k := by
    rw [resolveResults_addAll_length]; exact hk
  rw [hres]
  refine ⟨spliceJS_of_le _ _ _ _ ho, ?_, ?_⟩
  · exact spliceJS_length_of_le _ _ _ _ ho hlen
  · rw [spliceJS_length_of_le _ _ _ _ ho hlen]
    exact Nat.le_max_left _ _

/-- C1 witness: the amended theorem at a concrete one-result full page
merged into the empty cache. -/
theorem search_merge_overwrite_amended_witness :
    (searchResults (search "q" { offset := some 0, limit := some 1 }
        (.ok (some [exResult "a"])) exState0).2 "q").length =
      max (searchResults exState0 "q").length (0 + 1) :=
  (search_merge_overwrite_amended exState0 "q" 0 1 [exResult "a"]
    (by decide) rfl).2.1

/-- C2: starting with no cached results for `q`, fetching the page
`[0, 10)` and then the page `[10, 20)` (each returning 10 results) yields
a 20-element cached sequence whose first ten elements are exactly the
sequence cached after the first call and whose last ten are the second
page (as resolved against the updated table) in order. -/
theorem search_two_pages_merge (s : StoreState) (q : String)
    (data1 data2 : List SearchResult) (h0 : searchResults s q = [])
    (h1 : data1.length = 10) (h2 : data2.length = 10) :
    let s1 := (search q { offset := some 0, limit := some 10 }
      (.ok (some data1)) s).2
    let s2 := (search q { offset := some 10, limit := some 10 }
      (.ok (some data2)) s1).2
    (searchResults s2 q).length = 20 ∧
      (searchResults s2 q).take 10 = searchResults s1 q ∧
      (searchResults s2 q).drop 10 =
        resolveResults (addAll s1.data (data2.map (fun r => r.document)))
          data2 := by
  intro s1 s2
  have hc1 : searchResults s1 q =
      resolveResults (addAll s.data (data1.map (fun r => r.document)))
        data1 := by
    rw [searchResults_search_some q 0 10 data1 s, h0]
    simp [spliceJS]
  have hR1 : (searchResults s1 q).length = 10 := by
    rw [hc1, resolveResults_addAll_length]; exact h1
  have hR2 : (resolveResults (addAll s1.data
      (data2.map (fun r => r.document))) data2).length = 10 := by
    rw [resolveResults_addAll_length]; exact h2
  have hmerge : searchResults s2 q =
      searchResults s1 q ++
        resolveResults (addAll s1.data (data2.map (fun r => r.document)))
          data2 := by
    rw [searchResults_search_some q 10 10 data2 s1]
    rw [spliceJS_of_le _ _ _ _ (le_of_eq hR1.symm)]
    rw [List.drop_eq_nil_of_le (by rw [hR1]; omega), List.append_nil]
    rw [List.take_of_length_le (le_of_eq hR1)]
  refine ⟨?_, ?_, ?_⟩
  · rw [hmerge, List.length_append, hR1, hR2]
  · rw [hmerge, List.take_left' hR1]
  · rw [hmerge, List.drop_left' hR1]

/-- C2 witness: the two-page merge at two concrete full pages of ten
results starting from the empty store. -/
theorem search_two_pages_merge_witness :
    (searchResults
        (search "q" { offset := some 10, limit := some 10 }
          (.ok (some (exPage "b")))
          (search "q" { offset := some 0, limit := some 10 }
            (.ok (some (exPage "a"))) exState0).2).2 "q").length = 20 :=
  (search_two_pages_merge exState0 "q" (exPage "a") (exPage "b")
    rfl rfl rfl).1

/-- C3: the merge is idempotent per range: with no cached results for `q`,
calling `search(q, {offset:0, limit:10})` twice with the transport
returning the identical 10 results both times leaves the cached sequence
at length 10 after each call — the second call overwrites the first page
in place instead of appending. -/
theorem search_merge_idempotent (s : StoreState) (q : String)
    (data : List SearchResult) (h0 : searchResults s q = [])
    (h : data.length = 10) :
    let s1 := (search q { offset := some 0, limit := some 10 }
      (.ok (some data)) s).2
    let s2 := (search q { offset := some 0, limit := some 10 }
      (.ok (some data)) s1).2
    (searchResults s1 q).length = 10 ∧ (searchResults s2 q).length = 10 := by
  intro s1 s2
  have hc1 : searchResults s1 q =
      resolveResults (addAll s.data (data.map (fun r => r.document)))
        data := by
    rw [searchResults_search_some q 0 10 data s, h0]
    simp [spliceJS]
  have hR1 : (searchResults s1 q).length = 10 := by
    rw [hc1, resolveResults_addAll_length]; exact h
  refine ⟨hR1, ?_⟩
  rw [searchResults_search_some q 0 10 data s1]
  rw [spliceJS_length_of_le _ _ _ _ (Nat.zero_le _)
    (by rw [resolveResults_addAll_length]; exact h)]
  rw [hR1]
  decide

/-- C3 witness: the idempotent merge at a concrete full page of ten
results fetched twice from the empty store. -/
theorem search_merge_idempotent_witness :
    (searchResults
        (search "q" { offset := some 0, limit := some 10 }
          (.ok (some (exPage "a")))
          (search "q" { offset := some 0, limit := some 10 }
            (.ok (some (exPage "a"))) exState0).2).2 "q").length = 10 :=
  (search_merge_idempotent exState0 "q" (exPage "a") rfl rfl).2

end DocumentsStore
